import Mathlib

/-!
Verification development for the mobil-api banking core
(`src/banking/models.py`, `src/banking/serializers.py`,
`src/banking/views.py`, `src/banking/migrations/0002_initial_data.py`).

Monetary values are Python `decimal.Decimal` numbers in the source; we embed
them as rationals (`ℚ`).  Python's default decimal context computes every
arithmetic result exactly and then rounds it to 28 significant digits with
ROUND_HALF_EVEN; `round28` below models that rounding step, so each decimal
operation of the source is embedded as the exact rational operation followed
by `round28`.  Python exceptions (`ValueError`, `Currency.DoesNotExist`,
`decimal.DivisionByZero`) are embedded with `Except String`.  Django ORM
state (the persisted `Transaction` rows) is embedded as an explicit ledger
list threaded through the operations, together with a trace of the primitive
database writes (`Event`) in the order the source performs them.
-/

namespace MobilApi

/-- Rounding a rational to the nearest integer, ties to even:
Python decimal's ROUND_HALF_EVEN tie-breaking rule. -/
def rhe (y : ℚ) : ℤ :=
  if Int.fract y = 1/2 then (if Even ⌊y⌋ then ⌊y⌋ else ⌊y⌋ + 1) else round y

/-- Rounding a rational to 28 significant decimal digits, half to even: the
rounding Python's default decimal context applies to every arithmetic result
(context precision 28, ROUND_HALF_EVEN).  `Int.log 10 |q|` is the decimal
exponent of the leading digit, so the unit `10 ^ (Int.log 10 |q| - 27)` is
the place value of the 28th significant digit. -/
def round28 (q : ℚ) : ℚ :=
  if q = 0 then 0
  else
    (if 0 < q then 1 else -1) * (rhe (|q| / (10:ℚ) ^ (Int.log 10 |q| - 27)) : ℚ)
      * (10:ℚ) ^ (Int.log 10 |q| - 27)

/-- Model of `banking.models.Currency`: code (3-letter primary key), display
name, symbol, exchange rate to USD (a decimal field), active flag. -/
structure Currency where
  code : String
  name : String
  symbol : String
  exchange_rate : ℚ
  is_active : Bool
deriving DecidableEq

/-- Model of `Currency.convert_to` (models.py lines 118-125): identical codes
return the amount unchanged; otherwise `amount / self.exchange_rate *
target_currency.exchange_rate`, two decimal-context operations, each rounded
to 28 significant digits.  Python raises `decimal.DivisionByZero` when the
source rate is zero; that uncaught exception is the `.error` branch. -/
def Currency.convert_to (self : Currency) (amount : ℚ) (target_currency : Currency) :
    Except String ℚ :=
  if self.code = target_currency.code then .ok amount
  else if self.exchange_rate = 0 then .error "DivisionByZero"
  else .ok (round28 (round28 (amount / self.exchange_rate) * target_currency.exchange_rate))

/-- The USD row seeded by `migrations/0002_initial_data.py` (base currency,
rate 1). -/
def USD : Currency := ⟨"USD", "US Dollar", "$", 1, true⟩

/-- The EUR row seeded by `migrations/0002_initial_data.py` (1 USD = 0.85 EUR). -/
def EUR : Currency := ⟨"EUR", "Euro", "€", 85/100, true⟩

/-- The RUB row seeded by `migrations/0002_initial_data.py` (1 USD = 75 RUB). -/
def RUB : Currency := ⟨"RUB", "Russian Ruble", "₽", 75, true⟩

/-- The currency table created by
`migrations/0002_initial_data.py::create_initial_currencies`. -/
def initialCurrencies : List Currency := [USD, EUR, RUB]

/-- Model of `banking.models.UserAccount`: owning user (its id stands for the
1:1 user reference and is the account's primary key), phone number, home
currency, account number, balance (a 12-digit, 2-decimal-place field),
active flag.  Timestamps are not modelled. -/
structure UserAccount where
  id : Nat
  phone_number : String
  default_currency : Currency
  account_number : String
  balance : ℚ
  is_active : Bool
deriving DecidableEq

/-- Model of `UserAccount.has_sufficient_balance` (models.py lines 180-181):
`self.balance >= amount`. -/
def UserAccount.has_sufficient_balance (self : UserAccount) (amount : ℚ) : Bool :=
  decide (self.balance ≥ amount)

/-- Model of `UserAccount.deposit` (models.py lines 183-190): raises
`ValueError` for a non-positive amount, otherwise adds the amount to the
balance and saves. -/
def UserAccount.deposit (self : UserAccount) (amount : ℚ) : Except String UserAccount :=
  if amount ≤ 0 then .error "Deposit amount must be positive"
  else .ok { self with balance := self.balance + amount }

/-- Model of `UserAccount.withdraw` (models.py lines 192-204): raises
`ValueError` for a non-positive amount, raises `ValueError` when
`has_sufficient_balance` is false, otherwise subtracts the amount from the
balance and saves.  A raised error performs no mutation. -/
def UserAccount.withdraw (self : UserAccount) (amount : ℚ) : Except String UserAccount :=
  if amount ≤ 0 then .error "Withdrawal amount must be positive"
  else if self.has_sufficient_balance amount = false then .error "Insufficient funds"
  else .ok { self with balance := self.balance - amount }

/-- Model of `UserAccount.get_balance_in_currency` (models.py lines 206-214):
the account's own currency code returns the balance directly; otherwise the
currency table is consulted (`Currency.objects.get`), a hit converts the
balance, and `Currency.DoesNotExist` is caught and turned into 0.  Any
exception raised by `convert_to` itself is not caught and propagates. -/
def UserAccount.get_balance_in_currency (self : UserAccount) (table : List Currency)
    (currency_code : String) : Except String ℚ :=
  if currency_code = self.default_currency.code then .ok self.balance
  else
    match table.find? (fun c => c.code == currency_code) with
    | some target_currency => self.default_currency.convert_to self.balance target_currency
    | none => .ok 0

/-- Model of `banking.models.Transaction` rows: optional sender and recipient
account references (by account id), amount, currency, kind, description and
success flag.  The random `transaction_id` and the timestamp are not
modelled; a row's identity is its position in the ledger list. -/
structure Transaction where
  sender : Option Nat
  recipient : Option Nat
  amount : ℚ
  currency : Currency
  transaction_type : String
  description : String
  is_successful : Bool
deriving DecidableEq

/-- One primitive database write performed by the banking operations, in
program order: creating a `Transaction` row, saving an account's new
balance, or updating a `Transaction` row's success flag to true. -/
inductive Event where
  | createEntry (t : Transaction)
  | mutateBalance (accountId : Nat) (newBalance : ℚ)
  | updateEntrySuccess (t : Transaction)
deriving DecidableEq

/-- The complete observable outcome of a transfer attempt: the returned or
raised value, the post-state of both accounts, the post-state of the ledger,
and the trace of database writes in order. -/
structure TransferOutcome where
  result : Except String Transaction
  sender : UserAccount
  recipient : UserAccount
  ledger : List Transaction
  events : List Event

/-- Model of `Transaction.transfer` (models.py lines 284-315): reject a
self-transfer, reject when `has_sufficient_balance` fails — both checks
before any row is created — then create the row with `is_successful=False`,
withdraw from the sender, deposit to the recipient, and finally flip the
row's success flag to true.  An exception from `withdraw` or `deposit`
propagates and leaves the row in its pending state. -/
def Transaction.transfer (sender recipient : UserAccount) (amount : ℚ)
    (currency : Currency) (description : String)
    (ledger : List Transaction) : TransferOutcome :=
  if sender.id = recipient.id then
    ⟨.error "Cannot transfer to the same account", sender, recipient, ledger, []⟩
  else if sender.has_sufficient_balance amount = false then
    ⟨.error "Insufficient funds for transfer", sender, recipient, ledger, []⟩
  else
    let txn : Transaction :=
      ⟨some sender.id, some recipient.id, amount, currency, "TRANSFER", description, false⟩
    match sender.withdraw amount with
    | .error e => ⟨.error e, sender, recipient, ledger ++ [txn], [.createEntry txn]⟩
    | .ok sender2 =>
      match recipient.deposit amount with
      | .error e => ⟨.error e, sender2, recipient, ledger ++ [txn],
          [.createEntry txn, .mutateBalance sender.id sender2.balance]⟩
      | .ok recipient2 =>
        ⟨.ok { txn with is_successful := true }, sender2, recipient2,
          ledger ++ [{ txn with is_successful := true }],
          [.createEntry txn, .mutateBalance sender.id sender2.balance,
           .mutateBalance recipient.id recipient2.balance,
           .updateEntrySuccess { txn with is_successful := true }]⟩

/-- Model of a transfer request through the API
(`TransactionSerializer.validate` and `.create`, serializers.py lines
149-204, used by both `TransferView.post` and `TransactionViewSet.create`):
the serializer rejects a non-positive amount with "Amount must be positive"
before `Transaction.transfer` is invoked.  Recipient and currency resolution
are modelled as already-resolved inputs. -/
def transferRequest (sender recipient : UserAccount) (amount : ℚ) (currency : Currency)
    (description : String) (ledger : List Transaction) : TransferOutcome :=
  if amount ≤ 0 then ⟨.error "Amount must be positive", sender, recipient, ledger, []⟩
  else Transaction.transfer sender recipient amount currency description ledger

/-- The observable outcome of a deposit request: returned or raised value,
account post-state, ledger post-state and the database-write trace. -/
structure DepositOutcome where
  result : Except String Transaction
  account : UserAccount
  ledger : List Transaction
  events : List Event

/-- Model of the deposit endpoint (`UserAccountViewSet.deposit`, views.py
lines 213-256): reject a non-positive amount, look the currency up
(rejecting when unknown), then create the `Transaction` row with
`is_successful=True` and only afterwards credit the account via
`UserAccount.deposit`. -/
def depositView (account : UserAccount) (table : List Currency) (amount : ℚ)
    (currency_code : String) (ledger : List Transaction) : DepositOutcome :=
  if amount ≤ 0 then ⟨.error "Amount must be positive", account, ledger, []⟩
  else
    match table.find? (fun c => c.code == currency_code) with
    | none => ⟨.error "Currency not found", account, ledger, []⟩
    | some currency =>
      let txn : Transaction :=
        ⟨none, some account.id, amount, currency, "DEPOSIT", "Deposit funds", true⟩
      match account.deposit amount with
      | .error e => ⟨.error e, account, ledger ++ [txn], [.createEntry txn]⟩
      | .ok account2 => ⟨.ok txn, account2, ledger ++ [txn],
          [.createEntry txn, .mutateBalance account.id account2.balance]⟩

/-- The pending ledger row `Transaction.transfer` creates (models.py lines
293-302) before attempting either balance mutation. -/
def pendingTxn (sender recipient : UserAccount) (amount : ℚ) (currency : Currency)
    (description : String) : Transaction :=
  ⟨some sender.id, some recipient.id, amount, currency, "TRANSFER", description, false⟩

/-- The ledger row the deposit endpoint creates (views.py lines 237-244),
already marked successful. -/
def depositTxn (account : UserAccount) (amount : ℚ) (currency : Currency) : Transaction :=
  ⟨none, some account.id, amount, currency, "DEPOSIT", "Deposit funds", true⟩

/-- Fixture: an account holding 100.00 with home currency USD. -/
def alice : UserAccount := ⟨1, "+15550000001", USD, "ACC1", 100, true⟩

/-- Fixture: an account holding 0.00 with home currency EUR. -/
def bob : UserAccount := ⟨2, "+15550000002", EUR, "ACC2", 0, true⟩

/-- Fixture: an account holding 10.00 with home currency USD. -/
def carol : UserAccount := ⟨3, "+15550000003", USD, "ACC3", 10, true⟩

/-- Rounding to the nearest integer with ties to even moves a value by at
most one half. -/
lemma rhe_err (y : ℚ) : |(rhe y : ℚ) - y| ≤ 1/2 := by
  unfold rhe
  split
  · next h =>
    have hy : y = (⌊y⌋ : ℚ) + 1/2 := by
      have := Int.self_sub_floor y
      rw [h] at this
      linarith
    split
    · rw [hy, abs_le]; constructor <;> norm_num
    · rw [hy, abs_le]; constructor <;> push_cast <;> norm_num
  · rw [abs_sub_comm]; exact abs_sub_round y

/-- Characterization of the base-10 integer logarithm by two powers. -/
lemma log10_eq {r : ℚ} {e : ℤ} (hr : 0 < r) (h1 : (10:ℚ)^e ≤ r) (h2 : r < (10:ℚ)^(e+1)) :
    Int.log 10 r = e := by
  have hb : 1 < (10:ℕ) := by norm_num
  have hcast : (((10:ℕ)):ℚ) = (10:ℚ) := by norm_num
  have ha : e ≤ Int.log 10 r := by
    rw [← Int.zpow_le_iff_le_log hb hr, hcast]; exact h1
  have hb2 : Int.log 10 r < e + 1 := by
    rw [← Int.lt_zpow_iff_log_lt hb hr, hcast]; exact h2
  omega

/-- Rounding to 28 significant digits has relative error at most 10^-27. -/
lemma round28_err (q : ℚ) : |round28 q - q| ≤ |q| / 10^27 := by
  rcases eq_or_ne q 0 with h0 | h0
  · simp [round28, h0]
  · have habs : 0 < |q| := abs_pos.mpr h0
    set m : ℚ := |q| with hm
    set u : ℚ := (10:ℚ) ^ (Int.log 10 m - 27) with hu
    have hupos : 0 < u := by positivity
    have hule : u ≤ m / 10^27 := by
      have h10 : (((10:ℕ)):ℚ) ^ (Int.log 10 m) ≤ m :=
        Int.zpow_log_le_self (by norm_num) habs
      have h10' : (10:ℚ) ^ (Int.log 10 m) ≤ m := by push_cast at h10; exact h10
      have hrw : u = (10:ℚ) ^ (Int.log 10 m) / 10^27 := by
        rw [hu, zpow_sub₀ (by norm_num : (10:ℚ) ≠ 0)]
        norm_num
      rw [hrw]
      exact div_le_div_of_nonneg_right h10' (by norm_num)
    have key : |(rhe (m/u) : ℚ) * u - m| ≤ u / 2 := by
      have hrw : (rhe (m/u) : ℚ) * u - m = ((rhe (m/u) : ℚ) - m/u) * u := by
        field_simp
      rw [hrw, abs_mul, abs_of_pos hupos]
      have h2 := rhe_err (m/u)
      nlinarith [abs_nonneg ((rhe (m/u) : ℚ) - m/u)]
    have hmain : |round28 q - q| = |(rhe (m/u) : ℚ) * u - m| := by
      rcases lt_trichotomy q 0 with hq | hq | hq
      · have h1 : round28 q = -1 * (rhe (m/u) : ℚ) * u := by
          rw [round28, if_neg h0, if_neg (not_lt.mpr (le_of_lt hq)), ← hm, ← hu]
        rw [h1]
        have habsq : m = -q := by rw [hm]; exact abs_of_neg hq
        rw [show -1 * (rhe (m/u) : ℚ) * u - q = -((rhe (m/u) : ℚ) * u - m) by
          rw [habsq]; ring]
        exact abs_neg _
      · exact absurd hq h0
      · have h1 : round28 q = 1 * (rhe (m/u) : ℚ) * u := by
          rw [round28, if_neg h0, if_pos hq, ← hm, ← hu]
        rw [h1]
        have habsq : m = q := by rw [hm]; exact abs_of_pos hq
        rw [show 1 * (rhe (m/u) : ℚ) * u - q = (rhe (m/u) : ℚ) * u - m by
          rw [habsq]; ring]
    rw [hmain]
    calc |(rhe (m/u) : ℚ) * u - m| ≤ u / 2 := key
      _ ≤ u := by linarith
      _ ≤ m / 10^27 := hule

/-- Rounding to 28 significant digits at most doubles the magnitude. -/
lemma round28_abs_le (q : ℚ) : |round28 q| ≤ 2 * |q| := by
  have h1 := round28_err q
  have h2 : |q| / 10^27 ≤ |q| := by
    have := abs_nonneg q
    rw [div_le_iff₀ (by norm_num : (0:ℚ) < 10^27)]
    nlinarith
  calc |round28 q| = |(round28 q - q) + q| := by ring_nf
    _ ≤ |round28 q - q| + |q| := abs_add _ _
    _ ≤ |q| + |q| := by linarith
    _ = 2 * |q| := by ring

/-- Four rounded operations of a conversion round trip (divide by the first
rate, multiply by the second, divide by the second, multiply by the first)
return to the start within one minor unit, for amounts up to the 12-digit
capacity of the balance field. -/
lemma roundtrip (a b x : ℚ) (ha : 0 < a) (hb : 0 < b) (hx : |x| ≤ 10^10) :
    |round28 (round28 (round28 (round28 (x / a) * b) / b) * a) - x| ≤ 1/100 := by
  set y1 : ℚ := round28 (x / a) with hy1
  set y2 : ℚ := round28 (y1 * b) with hy2
  set y3 : ℚ := round28 (y2 / b) with hy3
  set z : ℚ := round28 (y3 * a) with hz
  have E1 : |a * y1 - x| ≤ |x| / 10^27 := by
    have h := round28_err (x / a)
    have hrw : a * y1 - x = a * (y1 - x / a) := by
      field_simp
      all_goals ring
    rw [hrw, abs_mul, abs_of_pos ha]
    have habs : |x / a| = |x| / a := by rw [abs_div, abs_of_pos ha]
    rw [habs] at h
    calc a * |y1 - x / a| ≤ a * (|x| / a / 10^27) := by
          exact mul_le_mul_of_nonneg_left h (le_of_lt ha)
      _ = |x| / 10^27 := by
          field_simp
          all_goals ring
  have M1 : a * |y1| ≤ 2 * |x| := by
    have h := round28_abs_le (x / a)
    have habs : |x / a| = |x| / a := by rw [abs_div, abs_of_pos ha]
    rw [habs] at h
    calc a * |y1| ≤ a * (2 * (|x| / a)) := mul_le_mul_of_nonneg_left h (le_of_lt ha)
      _ = 2 * |x| := by
          field_simp
  have E2 : |y2 - y1 * b| ≤ |y1| * b / 10^27 := by
    have h := round28_err (y1 * b)
    rwa [abs_mul, abs_of_pos hb] at h
  have M2 : |y2| ≤ 2 * (|y1| * b) := by
    have h := round28_abs_le (y1 * b)
    rwa [abs_mul, abs_of_pos hb] at h
  have E3 : |b * y3 - y2| ≤ |y2| / 10^27 := by
    have h := round28_err (y2 / b)
    have hrw : b * y3 - y2 = b * (y3 - y2 / b) := by
      field_simp
      all_goals ring
    rw [hrw, abs_mul, abs_of_pos hb]
    have habs : |y2 / b| = |y2| / b := by rw [abs_div, abs_of_pos hb]
    rw [habs] at h
    calc b * |y3 - y2 / b| ≤ b * (|y2| / b / 10^27) :=
          mul_le_mul_of_nonneg_left h (le_of_lt hb)
      _ = |y2| / 10^27 := by
          field_simp
          all_goals ring
  have M3 : b * |y3| ≤ 2 * |y2| := by
    have h := round28_abs_le (y2 / b)
    have habs : |y2 / b| = |y2| / b := by rw [abs_div, abs_of_pos hb]
    rw [habs] at h
    calc b * |y3| ≤ b * (2 * (|y2| / b)) := mul_le_mul_of_nonneg_left h (le_of_lt hb)
      _ = 2 * |y2| := by
          field_simp
  have E4 : |z - y3 * a| ≤ |y3| * a / 10^27 := by
    have h := round28_err (y3 * a)
    rwa [abs_mul, abs_of_pos ha] at h
  have tele : b * (z - x) = b * (z - y3 * a) + a * (b * y3 - y2) + a * (y2 - b * y1)
      + b * (a * y1 - x) := by ring
  have tri : b * |z - x| ≤ b * |z - y3 * a| + a * |b * y3 - y2| + a * |y2 - b * y1|
      + b * |a * y1 - x| := by
    have h1 : b * |z - x| = |b * (z - x)| := by
      rw [abs_mul, abs_of_pos hb]
    rw [h1, tele]
    calc |b * (z - y3 * a) + a * (b * y3 - y2) + a * (y2 - b * y1) + b * (a * y1 - x)|
        ≤ |b * (z - y3 * a) + a * (b * y3 - y2) + a * (y2 - b * y1)| + |b * (a * y1 - x)| :=
          abs_add _ _
      _ ≤ |b * (z - y3 * a) + a * (b * y3 - y2)| + |a * (y2 - b * y1)| + |b * (a * y1 - x)| := by
          have := abs_add (b * (z - y3 * a) + a * (b * y3 - y2)) (a * (y2 - b * y1))
          linarith
      _ ≤ |b * (z - y3 * a)| + |a * (b * y3 - y2)| + |a * (y2 - b * y1)| + |b * (a * y1 - x)| := by
          have := abs_add (b * (z - y3 * a)) (a * (b * y3 - y2))
          linarith
      _ = b * |z - y3 * a| + a * |b * y3 - y2| + a * |y2 - b * y1| + b * |a * y1 - x| := by
          rw [abs_mul, abs_mul, abs_mul, abs_mul, abs_of_pos ha, abs_of_pos hb]
  have habsx : (0:ℚ) ≤ |x| := abs_nonneg x
  have haby1 : (0:ℚ) ≤ |y1| := abs_nonneg y1
  have haby2 : (0:ℚ) ≤ |y2| := abs_nonneg y2
  have haby3 : (0:ℚ) ≤ |y3| := abs_nonneg y3
  have hM2' : a * |y2| ≤ 4 * (b * |x|) := by nlinarith
  have hM3' : a * (b * |y3|) ≤ 8 * (b * |x|) := by nlinarith
  have T1 : b * |z - y3 * a| ≤ 8 * (b * |x|) / 10^27 := by
    calc b * |z - y3 * a| ≤ b * (|y3| * a / 10^27) :=
          mul_le_mul_of_nonneg_left E4 (le_of_lt hb)
      _ = a * (b * |y3|) / 10^27 := by ring
      _ ≤ 8 * (b * |x|) / 10^27 := by
          exact div_le_div_of_nonneg_right hM3' (by norm_num)
  have T2 : a * |b * y3 - y2| ≤ 4 * (b * |x|) / 10^27 := by
    calc a * |b * y3 - y2| ≤ a * (|y2| / 10^27) :=
          mul_le_mul_of_nonneg_left E3 (le_of_lt ha)
      _ = a * |y2| / 10^27 := by ring
      _ ≤ 4 * (b * |x|) / 10^27 := div_le_div_of_nonneg_right hM2' (by norm_num)
  have T3 : a * |y2 - b * y1| ≤ 2 * (b * |x|) / 10^27 := by
    have E2' : |y2 - b * y1| ≤ |y1| * b / 10^27 := by
      rw [show y2 - b * y1 = y2 - y1 * b by ring]; exact E2
    calc a * |y2 - b * y1| ≤ a * (|y1| * b / 10^27) :=
          mul_le_mul_of_nonneg_left E2' (le_of_lt ha)
      _ = b * (a * |y1|) / 10^27 := by ring
      _ ≤ 2 * (b * |x|) / 10^27 := by
          apply div_le_div_of_nonneg_right _ (by norm_num)
          nlinarith
  have T4 : b * |a * y1 - x| ≤ b * |x| / 10^27 := by
    calc b * |a * y1 - x| ≤ b * (|x| / 10^27) :=
          mul_le_mul_of_nonneg_left E1 (le_of_lt hb)
      _ = b * |x| / 10^27 := by ring
  have total : b * |z - x| ≤ 15 * (b * |x|) / 10^27 := by linarith
  have final : |z - x| ≤ 15 * |x| / 10^27 := by
    have h15 : b * |z - x| ≤ b * (15 * |x| / 10^27) := by
      calc b * |z - x| ≤ 15 * (b * |x|) / 10^27 := total
        _ = b * (15 * |x| / 10^27) := by ring
    exact le_of_mul_le_mul_left h15 hb
  calc |z - x| ≤ 15 * |x| / 10^27 := final
    _ ≤ 15 * 10^10 / 10^27 := by
        apply div_le_div_of_nonneg_right _ (by norm_num)
        linarith
    _ ≤ 1/100 := by norm_num

/-- Ties-to-even rounding fixes the integers. -/
lemma rhe_int (n : ℤ) : rhe (n : ℚ) = n := by
  unfold rhe
  rw [Int.fract_intCast]
  norm_num

/-- A positive value that already has exactly 28 significant decimal digits
is a fixed point of `round28`. -/
lemma round28_fix (n k : ℤ) (h1 : 10^27 ≤ n) (h2 : n < 10^28) :
    round28 ((n:ℚ) * (10:ℚ)^k) = (n:ℚ) * (10:ℚ)^k := by
  have hn0 : (0:ℤ) < n := by positivity
  have hnq : (0:ℚ) < (n:ℚ) := by exact_mod_cast hn0
  have hq : (0:ℚ) < (n:ℚ) * (10:ℚ)^k := by positivity
  have habs : |(n:ℚ) * (10:ℚ)^k| = (n:ℚ) * (10:ℚ)^k := abs_of_pos hq
  have h1q : (10:ℚ)^(27:ℕ) ≤ (n:ℚ) := by exact_mod_cast h1
  have h2q : (n:ℚ) < (10:ℚ)^(28:ℕ) := by exact_mod_cast h2
  have hlog : Int.log 10 ((n:ℚ) * (10:ℚ)^k) = k + 27 := by
    apply log10_eq hq
    · rw [zpow_add₀ (by norm_num : (10:ℚ) ≠ 0)]
      have hz : (10:ℚ)^(27:ℤ) = (10:ℚ)^(27:ℕ) := by norm_num
      rw [hz]
      have hpk : (0:ℚ) < (10:ℚ)^k := by positivity
      nlinarith
    · rw [show k + 27 + 1 = k + 28 by ring, zpow_add₀ (by norm_num : (10:ℚ) ≠ 0)]
      have hz : (10:ℚ)^(28:ℤ) = (10:ℚ)^(28:ℕ) := by norm_num
      rw [hz]
      have hpk : (0:ℚ) < (10:ℚ)^k := by positivity
      nlinarith
  have hne : (n:ℚ) * (10:ℚ)^k ≠ 0 := ne_of_gt hq
  rw [round28, if_neg hne, if_pos hq, habs, hlog]
  rw [show k + 27 - 27 = k by ring]
  have hdiv : (n:ℚ) * (10:ℚ)^k / (10:ℚ)^k = (n:ℚ) := by
    field_simp
  rw [hdiv, rhe_int]
  ring

/-- The decimal value 30 is a fixed point of `round28`. -/
lemma round28_thirty : round28 (30:ℚ) = 30 := by
  have h : (30:ℚ) = ((3 * 10^27 : ℤ) : ℚ) * (10:ℚ)^(-26 : ℤ) := by
    push_cast
    rw [zpow_neg]
    norm_num
  rw [h, round28_fix _ _ (by norm_num) (by norm_num)]

/-- The decimal value 25.50 is a fixed point of `round28`. -/
lemma round28_fifty_one_half : round28 ((51:ℚ)/2) = 51/2 := by
  have h : ((51:ℚ)/2) = ((255 * 10^25 : ℤ) : ℚ) * (10:ℚ)^(-26 : ℤ) := by
    push_cast
    rw [zpow_neg]
    norm_num
  rw [h, round28_fix _ _ (by norm_num) (by norm_num)]

/-- Inversion of a successful withdrawal: the new account is the old one with
the amount removed, and the guards held. -/
lemma withdraw_ok {a a2 : UserAccount} {x : ℚ} (h : a.withdraw x = .ok a2) :
    a2 = { a with balance := a.balance - x } ∧ 0 < x ∧ x ≤ a.balance := by
  unfold UserAccount.withdraw at h
  by_cases h1 : x ≤ 0
  · rw [if_pos h1] at h; exact Except.noConfusion h
  rw [if_neg h1] at h
  by_cases h2 : a.has_sufficient_balance x = false
  · rw [if_pos h2] at h; exact Except.noConfusion h
  rw [if_neg h2] at h
  injection h with h3
  refine ⟨h3.symm, by linarith [not_le.mp h1], ?_⟩
  have := eq_true_of_ne_false h2
  simpa [UserAccount.has_sufficient_balance] using this

/-- Inversion of a successful deposit: the new account is the old one with
the amount added, and the amount was positive. -/
lemma deposit_ok {a a2 : UserAccount} {x : ℚ} (h : a.deposit x = .ok a2) :
    a2 = { a with balance := a.balance + x } ∧ 0 < x := by
  unfold UserAccount.deposit at h
  by_cases h1 : x ≤ 0
  · rw [if_pos h1] at h; exact Except.noConfusion h
  rw [if_neg h1] at h
  injection h with h3
  exact ⟨h3.symm, by linarith [not_le.mp h1]⟩

/-- C7: for every amount x and every currency C, converting x from C to C
returns x unchanged, with no rounding or arithmetic applied
(models.py lines 118-121, the identical-code early return). -/
theorem convert_to_identity (C : Currency) (x : ℚ) : C.convert_to x C = .ok x := by
  simp [Currency.convert_to]

/-- C6: the debit operation `UserAccount.withdraw` fails with the
invalid-amount error when the amount is non-positive, fails with the
insufficient-funds error exactly when the balance is strictly below the
amount (`has_sufficient_balance` holding iff balance ≥ amount), and
otherwise returns the account with the balance decreased by exactly the
amount; a failure returns no mutated account, so the balance is unchanged
(models.py lines 180-181 and 192-204). -/
theorem withdraw_spec (acc : UserAccount) (amount : ℚ) :
    (acc.has_sufficient_balance amount = true ↔ acc.balance ≥ amount) ∧
    (amount ≤ 0 → acc.withdraw amount = .error "Withdrawal amount must be positive") ∧
    (0 < amount → acc.balance < amount → acc.withdraw amount = .error "Insufficient funds") ∧
    (0 < amount → amount ≤ acc.balance →
      acc.withdraw amount = .ok { acc with balance := acc.balance - amount }) := by
  refine ⟨?_, ?_, ?_, ?_⟩
  · simp [UserAccount.has_sufficient_balance]
  · intro h
    simp [UserAccount.withdraw, h]
  · intro h1 h2
    have hs : acc.has_sufficient_balance amount = false := by
      simp [UserAccount.has_sufficient_balance]
      linarith
    simp [UserAccount.withdraw, not_le.mpr h1, hs]
  · intro h1 h2
    have hs : acc.has_sufficient_balance amount = true := by
      simp [UserAccount.has_sufficient_balance]
      linarith
    simp [UserAccount.withdraw, not_le.mpr h1, hs]

/-- C10: conversion between distinct currencies divides by the source
currency's exchange rate with no zero-divisor guard (the division-by-zero
error branch in `convert_to` stands for the unguarded Python exception);
whenever the source rate is strictly positive the conversion is total and
never reaches that branch, and every seeded currency has a strictly positive
rate (migrations/0002_initial_data.py lines 11-35). -/
theorem convert_to_total_of_pos_rate (C T : Currency) (x : ℚ)
    (h : 0 < C.exchange_rate) :
    (∃ v, C.convert_to x T = .ok v) ∧ ∀ c ∈ initialCurrencies, 0 < c.exchange_rate := by
  constructor
  · by_cases hc : C.code = T.code
    · exact ⟨x, by simp [Currency.convert_to, hc]⟩
    · exact ⟨round28 (round28 (x / C.exchange_rate) * T.exchange_rate),
        by simp [Currency.convert_to, hc, ne_of_gt h]⟩
  · intro c hc
    fin_cases hc <;> norm_num [USD, EUR, RUB]

/-- Witness for C10 at the seeded USD and EUR rows with amount 1. -/
theorem convert_to_total_of_pos_rate_witness :
    (∃ v, USD.convert_to 1 EUR = .ok v) ∧ ∀ c ∈ initialCurrencies, 0 < c.exchange_rate :=
  convert_to_total_of_pos_rate USD EUR 1 (by norm_num [USD])

/-- C4: a transfer request with a non-positive amount is rejected by the
serializer's amount validation with an invalid-amount error before
`Transaction.transfer` runs, so no ledger entry is created, no database
write happens and both balances are unchanged (serializers.py lines 159-163
and 193-204). -/
theorem transfer_request_nonpositive_rejected (sender recipient : UserAccount)
    (amount : ℚ) (currency : Currency) (description : String)
    (ledger : List Transaction) (h : amount ≤ 0) :
    transferRequest sender recipient amount currency description ledger =
      ⟨.error "Amount must be positive", sender, recipient, ledger, []⟩ := by
  simp [transferRequest, h]

/-- Witness for C4: a request for a transfer of -5 from the 100.00-USD
account to the 0.00-EUR account. -/
theorem transfer_request_nonpositive_rejected_witness :
    transferRequest alice bob (-5) USD "" [] =
      ⟨.error "Amount must be positive", alice, bob, [], []⟩ :=
  transfer_request_nonpositive_rejected alice bob (-5) USD "" [] (by norm_num)

/-- C5: a transfer whose sender and recipient are the same account is
rejected with the self-transfer error by the first check of
`Transaction.transfer`, before any ledger entry is created — the outcome
keeps both accounts, the ledger and the write trace unchanged — and no
transfer ever adds a ledger entry whose sender equals its recipient
(models.py lines 287-288). -/
theorem transfer_to_self_rejected (sender recipient : UserAccount) (amount : ℚ)
    (currency : Currency) (description : String) (ledger : List Transaction)
    (h : sender.id = recipient.id) :
    Transaction.transfer sender recipient amount currency description ledger =
      ⟨.error "Cannot transfer to the same account", sender, recipient, ledger, []⟩ ∧
    ∀ (s r : UserAccount) (a : ℚ) (c : Currency) (d : String) (l : List Transaction)
      (t : Transaction), t ∈ (Transaction.transfer s r a c d l).ledger → t ∉ l →
        t.sender ≠ t.recipient := by
  constructor
  · simp [Transaction.transfer, h]
  · intro s r a c d l t hmem hnot
    unfold Transaction.transfer at hmem
    by_cases hid : s.id = r.id
    · rw [if_pos hid] at hmem
      exact absurd hmem hnot
    rw [if_neg hid] at hmem
    by_cases hsuf : s.has_sufficient_balance a = false
    · rw [if_pos hsuf] at hmem
      exact absurd hmem hnot
    rw [if_neg hsuf] at hmem
    have hnew : t.sender = some s.id ∧ t.recipient = some r.id := by
      rcases hw : s.withdraw a with e | s2
      · rw [hw] at hmem
        simp at hmem
        rcases hmem with hmem | hmem
        · exact absurd hmem hnot
        · rw [hmem]
          exact ⟨rfl, rfl⟩
      · rw [hw] at hmem
        rcases hd : r.deposit a with e | r2 <;> rw [hd] at hmem <;> simp at hmem <;>
          rcases hmem with hmem | hmem
        · exact absurd hmem hnot
        · rw [hmem]
          exact ⟨rfl, rfl⟩
        · exact absurd hmem hnot
        · rw [hmem]
          exact ⟨rfl, rfl⟩
    rw [hnew.1, hnew.2]
    intro hcontra
    exact hid (Option.some.inj hcontra)

/-- Witness for C5: attempting to transfer 30 from the 100.00-USD account to
itself. -/
theorem transfer_to_self_rejected_witness :
    Transaction.transfer alice alice 30 USD "" [] =
      ⟨.error "Cannot transfer to the same account", alice, alice, [], []⟩ ∧
    ∀ (s r : UserAccount) (a : ℚ) (c : Currency) (d : String) (l : List Transaction)
      (t : Transaction), t ∈ (Transaction.transfer s r a c d l).ledger → t ∉ l →
        t.sender ≠ t.recipient :=
  transfer_to_self_rejected alice alice 30 USD "" [] rfl

/-- C3 counterexample: transferring 50.00 from the account holding 10.00 USD
fails with the insufficient-funds error and leaves the balance at 10.00, as
the claim says, but the check runs before any row is created, so afterwards
NO ledger entry for the attempt exists at all — refuting the claim's
"a ledger entry for this attempt exists with success=false". -/
theorem transfer_insufficient_no_entry_cex :
    (Transaction.transfer carol bob 50 USD "" []).result =
      .error "Insufficient funds for transfer" ∧
    (Transaction.transfer carol bob 50 USD "" []).sender.balance = 10 ∧
    (Transaction.transfer carol bob 50 USD "" []).ledger = [] ∧
    ¬ ∃ t, t ∈ (Transaction.transfer carol bob 50 USD "" []).ledger ∧
        t.is_successful = false := by
  norm_num [Transaction.transfer, carol, bob, UserAccount.has_sufficient_balance]

/-- C3 amended: a transfer whose sender's balance is strictly below the
amount fails with the insufficient-funds error and changes nothing: the
sender's balance is unchanged and — because the check precedes entry
creation (models.py lines 290-291) — no ledger entry for the attempt is
created. -/
theorem transfer_insufficient_funds_rejected (sender recipient : UserAccount)
    (amount : ℚ) (currency : Currency) (description : String)
    (ledger : List Transaction) (hid : sender.id ≠ recipient.id)
    (h : sender.balance < amount) :
    Transaction.transfer sender recipient amount currency description ledger =
      ⟨.error "Insufficient funds for transfer", sender, recipient, ledger, []⟩ := by
  have hs : sender.has_sufficient_balance amount = false := by
    simp [UserAccount.has_sufficient_balance]
    linarith
  simp [Transaction.transfer, hid, hs]

/-- Witness for the amended C3: 50.00 requested from the 10.00-USD account. -/
theorem transfer_insufficient_funds_rejected_witness :
    Transaction.transfer carol bob 50 USD "" [] =
      ⟨.error "Insufficient funds for transfer", carol, bob, [], []⟩ :=
  transfer_insufficient_funds_rejected carol bob 50 USD "" []
    (by norm_num [carol, bob]) (by norm_num [carol])

/-- The conversion of 30 from the seeded USD into the seeded EUR: 30 / 1 *
0.85 = 25.50 after the two rounded decimal operations. -/
lemma convert_usd_eur_thirty : USD.convert_to 30 EUR = .ok (51/2) := by
  have h1 : USD.convert_to 30 EUR =
      .ok (round28 (round28 ((30:ℚ) / 1) * (85/100))) := by
    simp [Currency.convert_to, USD, EUR]
  rw [h1]
  norm_num
  rw [round28_thirty]
  norm_num
  exact round28_fifty_one_half

/-- C1 counterexample: a successful transfer of 30 USD from the 100.00-USD
account to the 0.00-EUR account leaves the recipient's balance at 30 — the
raw amount — although the currency-converted equivalent of 30 USD in the
recipient's home currency EUR is 25.50: `Transaction.transfer` credits the
unconverted amount, refuting the claim that the recipient's balance rises by
the converted equivalent. -/
theorem transfer_applies_no_conversion_cex :
    (Transaction.transfer alice bob 30 USD "" []).result =
      .ok ⟨some 1, some 2, 30, USD, "TRANSFER", "", true⟩ ∧
    (Transaction.transfer alice bob 30 USD "" []).recipient.balance = 30 ∧
    USD.convert_to 30 EUR = .ok (51/2) ∧
    (30 : ℚ) ≠ 51/2 := by
  refine ⟨?_, ?_, convert_usd_eur_thirty, by norm_num⟩
  · norm_num [Transaction.transfer, alice, bob, UserAccount.withdraw,
      UserAccount.deposit, UserAccount.has_sufficient_balance]
  · norm_num [Transaction.transfer, alice, bob, UserAccount.withdraw,
      UserAccount.deposit, UserAccount.has_sufficient_balance]

/-- C1 amended: for every successful transfer of amount m the sender's
balance decreases by exactly m and the recipient's balance increases by
exactly m — the raw amount, with no currency conversion applied — so the two
numeric deltas sum to zero; expressed in a common currency they cancel only
when the conversion between the two home currencies is the identity
(models.py lines 304-306 credit the unconverted amount). -/
theorem transfer_success_balance_deltas (sender recipient : UserAccount)
    (amount : ℚ) (currency : Currency) (description : String)
    (ledger : List Transaction) (txn : Transaction)
    (h : (Transaction.transfer sender recipient amount currency description ledger).result
      = .ok txn) :
    (Transaction.transfer sender recipient amount currency description ledger).sender.balance
      = sender.balance - amount ∧
    (Transaction.transfer sender recipient amount currency description ledger).recipient.balance
      = recipient.balance + amount := by
  unfold Transaction.transfer at *
  by_cases h1 : sender.id = recipient.id
  · rw [if_pos h1] at h
    exact Except.noConfusion h
  rw [if_neg h1] at h ⊢
  by_cases h2 : sender.has_sufficient_balance amount = false
  · rw [if_pos h2] at h
    exact Except.noConfusion h
  rw [if_neg h2] at h ⊢
  rcases hw : sender.withdraw amount with e | s2
  · rw [hw] at h
    exact Except.noConfusion h
  rw [hw] at h
  rcases hd : recipient.deposit amount with e | r2
  · rw [hd] at h
    exact Except.noConfusion h
  refine ⟨?_, ?_⟩
  · show s2.balance = sender.balance - amount
    simp [(withdraw_ok hw).1]
  · show r2.balance = recipient.balance + amount
    simp [(deposit_ok hd).1]

/-- Witness for the amended C1: the successful transfer of 30 from the
100.00-USD account to the 0.00-EUR account, with balances 70 and 30 after. -/
theorem transfer_success_balance_deltas_witness :
    (Transaction.transfer alice bob 30 USD "" []).sender.balance = alice.balance - 30 ∧
    (Transaction.transfer alice bob 30 USD "" []).recipient.balance = bob.balance + 30 :=
  transfer_success_balance_deltas alice bob 30 USD "" []
    ⟨some 1, some 2, 30, USD, "TRANSFER", "", true⟩
    (by norm_num [Transaction.transfer, alice, bob, UserAccount.withdraw,
      UserAccount.deposit, UserAccount.has_sufficient_balance])

/-- C8: converting an amount from currency A to currency B and the result
back from B to A — with both exchange rates positive and the amount within
the 12-digit capacity of the amount field — returns the original amount
within one minor unit (0.01), the error coming only from the
28-significant-digit decimal rounding of each operation
(models.py lines 118-125). -/
theorem convert_to_roundtrip (A B : Currency) (x : ℚ)
    (hA : 0 < A.exchange_rate) (hB : 0 < B.exchange_rate) (hx : |x| ≤ 10^10) :
    ∃ y z : ℚ, A.convert_to x B = .ok y ∧ B.convert_to y A = .ok z ∧
      |z - x| ≤ 1/100 := by
  by_cases hc : A.code = B.code
  · refine ⟨x, x, ?_, ?_, by simp⟩
    · simp [Currency.convert_to, hc]
    · simp [Currency.convert_to, hc.symm]
  · have hc' : ¬ B.code = A.code := fun hh => hc hh.symm
    refine ⟨round28 (round28 (x / A.exchange_rate) * B.exchange_rate),
      round28 (round28 (round28 (round28 (x / A.exchange_rate) * B.exchange_rate)
        / B.exchange_rate) * A.exchange_rate), ?_, ?_, ?_⟩
    · simp [Currency.convert_to, hc, ne_of_gt hA]
    · simp [Currency.convert_to, hc', ne_of_gt hB]
    · exact roundtrip A.exchange_rate B.exchange_rate x hA hB hx

/-- Witness for C8: the round trip of 100 through the seeded USD and EUR. -/
theorem convert_to_roundtrip_witness :
    ∃ y z : ℚ, USD.convert_to 100 EUR = .ok y ∧ EUR.convert_to y USD = .ok z ∧
      |z - 100| ≤ 1/100 :=
  convert_to_roundtrip USD EUR 100 (by norm_num [USD]) (by norm_num [EUR]) (by norm_num)

/-- C9: querying an account's balance in a currency code always returns a
value and never raises, provided the account's home currency row is in the
table with a positive rate (the Currency invariant plus the foreign-key
guarantee): a registered code yields the balance converted via the currency
table, an unknown code yields zero (models.py lines 206-214). -/
theorem get_balance_in_currency_total (acc : UserAccount) (table : List Currency)
    (code : String) (h1 : 0 < acc.default_currency.exchange_rate)
    (h2 : acc.default_currency ∈ table) :
    ∃ v, acc.get_balance_in_currency table code = .ok v ∧
      (∀ c, table.find? (fun c2 => c2.code == code) = some c →
        acc.default_currency.convert_to acc.balance c = .ok v) ∧
      (table.find? (fun c2 => c2.code == code) = none → v = 0) := by
  unfold UserAccount.get_balance_in_currency
  by_cases hc : code = acc.default_currency.code
  · refine ⟨acc.balance, by simp [hc], ?_, ?_⟩
    · intro c hfind
      have hcode : c.code = code := by
        have := List.find?_some hfind
        simpa using this
      have : acc.default_currency.code = c.code := by rw [hcode, hc]
      simp [Currency.convert_to, this]
    · intro hnone
      exfalso
      rw [List.find?_eq_none] at hnone
      have := hnone acc.default_currency h2
      simp [hc] at this
  · rcases hfind : table.find? (fun c2 => c2.code == code) with _ | c
    · refine ⟨0, ?_, ?_, fun _ => rfl⟩
      · simp [hc, hfind]
      · intro c hsome
        rw [hfind] at hsome
        exact Option.noConfusion hsome
    · have hcode : c.code = code := by
        have := List.find?_some hfind
        simpa using this
      have hne : ¬ acc.default_currency.code = c.code := by
        rw [hcode]
        exact fun hh => hc hh.symm
      refine ⟨round28 (round28 (acc.balance / acc.default_currency.exchange_rate)
          * c.exchange_rate), ?_, ?_, ?_⟩
      · simp [hc, hfind, Currency.convert_to, hne, ne_of_gt h1]
      · intro c2 hsome
        rw [hfind] at hsome
        injection hsome with hcc
        subst hcc
        simp [Currency.convert_to, hne, ne_of_gt h1]
      · intro hnone
        rw [hfind] at hnone
        exact Option.noConfusion hnone

/-- Witness for C9: the 100.00-USD account queried in EUR against the seeded
currency table. -/
theorem get_balance_in_currency_total_witness :
    ∃ v, alice.get_balance_in_currency initialCurrencies "EUR" = .ok v ∧
      (∀ c, initialCurrencies.find? (fun c2 => c2.code == "EUR") = some c →
        alice.default_currency.convert_to alice.balance c = .ok v) ∧
      (initialCurrencies.find? (fun c2 => c2.code == "EUR") = none → v = 0) :=
  get_balance_in_currency_total alice initialCurrencies "EUR"
    (by norm_num [alice, USD]) (by simp [alice, initialCurrencies])

/-- Case analysis of a transfer attempt: validation failure with nothing
written; entry created and the debit failed; entry created, debit applied,
credit failed; or full success with the entry settled. -/
lemma transfer_shape (sender recipient : UserAccount) (amount : ℚ)
    (currency : Currency) (description : String) (ledger : List Transaction) :
    ((Transaction.transfer sender recipient amount currency description ledger).events = [] ∧
     (Transaction.transfer sender recipient amount currency description ledger).ledger
       = ledger) ∨
    ((Transaction.transfer sender recipient amount currency description ledger).events
       = [.createEntry (pendingTxn sender recipient amount currency description)] ∧
     (Transaction.transfer sender recipient amount currency description ledger).ledger
       = ledger ++ [pendingTxn sender recipient amount currency description]) ∨
    (∃ s2, sender.withdraw amount = .ok s2 ∧
     (Transaction.transfer sender recipient amount currency description ledger).events
       = [.createEntry (pendingTxn sender recipient amount currency description),
          .mutateBalance sender.id s2.balance] ∧
     (Transaction.transfer sender recipient amount currency description ledger).ledger
       = ledger ++ [pendingTxn sender recipient amount currency description]) ∨
    (∃ s2 r2, sender.withdraw amount = .ok s2 ∧ recipient.deposit amount = .ok r2 ∧
     (Transaction.transfer sender recipient amount currency description ledger).events
       = [.createEntry (pendingTxn sender recipient amount currency description),
          .mutateBalance sender.id s2.balance,
          .mutateBalance recipient.id r2.balance,
          .updateEntrySuccess { pendingTxn sender recipient amount currency description
            with is_successful := true }] ∧
     (Transaction.transfer sender recipient amount currency description ledger).ledger
       = ledger ++ [{ pendingTxn sender recipient amount currency description
            with is_successful := true }]) := by
  by_cases h1 : sender.id = recipient.id
  · exact Or.inl ⟨by simp [Transaction.transfer, h1],
      by simp [Transaction.transfer, h1]⟩
  by_cases h2 : sender.has_sufficient_balance amount = false
  · exact Or.inl ⟨by simp [Transaction.transfer, h1, h2],
      by simp [Transaction.transfer, h1, h2]⟩
  rcases hw : sender.withdraw amount with e | s2
  · exact Or.inr (Or.inl
      ⟨by simp [Transaction.transfer, pendingTxn, h1, h2, hw],
       by simp [Transaction.transfer, pendingTxn, h1, h2, hw]⟩)
  rcases hd : recipient.deposit amount with e | r2
  · exact Or.inr (Or.inr (Or.inl ⟨s2, rfl,
      by simp [Transaction.transfer, pendingTxn, h1, h2, hw, hd],
      by simp [Transaction.transfer, pendingTxn, h1, h2, hw, hd]⟩))
  · exact Or.inr (Or.inr (Or.inr ⟨s2, r2, rfl, rfl,
      by simp [Transaction.transfer, pendingTxn, h1, h2, hw, hd],
      by simp [Transaction.transfer, pendingTxn, h1, h2, hw, hd]⟩))

/-- Case analysis of a deposit request: validation failure with nothing
written, or the row created already successful followed by the credit. -/
lemma deposit_shape (account : UserAccount) (table : List Currency) (amount : ℚ)
    (code : String) (ledger : List Transaction) :
    ((depositView account table amount code ledger).events = [] ∧
     (depositView account table amount code ledger).ledger = ledger) ∨
    (∃ c, table.find? (fun c2 => c2.code == code) = some c ∧
     ((depositView account table amount code ledger).events
        = [.createEntry (depositTxn account amount c)] ∨
      ∃ a2, account.deposit amount = .ok a2 ∧
        (depositView account table amount code ledger).events
          = [.createEntry (depositTxn account amount c),
             .mutateBalance account.id a2.balance]) ∧
     (depositView account table amount code ledger).ledger
       = ledger ++ [depositTxn account amount c]) := by
  by_cases h1 : amount ≤ 0
  · exact Or.inl ⟨by simp [depositView, h1], by simp [depositView, h1]⟩
  rcases hf : table.find? (fun c2 => c2.code == code) with _ | c
  · exact Or.inl ⟨by simp [depositView, h1, hf], by simp [depositView, h1, hf]⟩
  rcases hd : account.deposit amount with e | a2
  · exact Or.inr ⟨c, hf,
      Or.inl (by simp [depositView, depositTxn, h1, hf, hd]),
      by simp [depositView, depositTxn, h1, hf, hd]⟩
  · exact Or.inr ⟨c, hf,
      Or.inr ⟨a2, rfl, by simp [depositView, depositTxn, h1, hf, hd]⟩,
      by simp [depositView, depositTxn, h1, hf, hd]⟩

/-- C2 counterexample: a deposit of 50 into the 100.00-USD account creates
its ledger entry with the success flag ALREADY true, and only afterwards
mutates the balance (to 150) — so the entry is never in the pending state,
refuting the claim that every operation creates its entry with success=false
before any balance mutation. -/
theorem deposit_entry_born_successful_cex :
    (depositView alice initialCurrencies 50 "USD" []).events =
      [.createEntry ⟨none, some 1, 50, USD, "DEPOSIT", "Deposit funds", true⟩,
       .mutateBalance 1 150] ∧
    (⟨none, some 1, 50, USD, "DEPOSIT", "Deposit funds", true⟩ : Transaction).is_successful
      = true := by
  constructor
  · norm_num [depositView, alice, initialCurrencies, USD, UserAccount.deposit]
  · rfl

/-- C2 amended: `Transaction.transfer` creates its ledger entry pending
(success=false) before any balance mutation, the entry creation precedes
every balance write, the success flag is set true only after both the debit
and the credit succeeded, and pre-existing ledger entries are never touched
(so a true flag is never reset); the deposit endpoint, by contrast, creates
its entry with success=true from the start — before its balance mutation —
and likewise never touches pre-existing entries. -/
theorem ledger_entry_lifecycle (sender recipient : UserAccount) (amount : ℚ)
    (currency : Currency) (description : String) (ledger : List Transaction)
    (account : UserAccount) (table : List Currency) (damount : ℚ)
    (code : String) (dledger : List Transaction) :
    (∀ t, Event.createEntry t ∈
        (Transaction.transfer sender recipient amount currency description ledger).events →
      t.is_successful = false) ∧
    (∀ i b2, Event.mutateBalance i b2 ∈
        (Transaction.transfer sender recipient amount currency description ledger).events →
      ∃ t, (Transaction.transfer sender recipient amount currency description
          ledger).events.head? = some (Event.createEntry t) ∧ t.is_successful = false) ∧
    (∀ t, Event.updateEntrySuccess t ∈
        (Transaction.transfer sender recipient amount currency description ledger).events →
      t.is_successful = true ∧ (∃ s2, sender.withdraw amount = .ok s2) ∧
        ∃ r2, recipient.deposit amount = .ok r2) ∧
    (∀ i, i < ledger.length →
      (Transaction.transfer sender recipient amount currency description ledger).ledger[i]?
        = ledger[i]?) ∧
    (∀ t, Event.createEntry t ∈ (depositView account table damount code dledger).events →
      t.is_successful = true) ∧
    (∀ i, i < dledger.length →
      (depositView account table damount code dledger).ledger[i]? = dledger[i]?) := by
  refine ⟨?_, ?_, ?_, ?_, ?_, ?_⟩
  · intro t ht
    rcases transfer_shape sender recipient amount currency description ledger with
      ⟨he, _⟩ | ⟨he, _⟩ | ⟨s2, _, he, _⟩ | ⟨s2, r2, _, _, he, _⟩
    · rw [he] at ht
      simp at ht
    · rw [he] at ht
      simp at ht
      simp [ht, pendingTxn]
    · rw [he] at ht
      simp at ht
      simp [ht, pendingTxn]
    · rw [he] at ht
      simp at ht
      simp [ht, pendingTxn]
  · intro i b2 hb
    rcases transfer_shape sender recipient amount currency description ledger with
      ⟨he, _⟩ | ⟨he, _⟩ | ⟨s2, _, he, _⟩ | ⟨s2, r2, _, _, he, _⟩
    · rw [he] at hb
      simp at hb
    · rw [he] at hb
      simp at hb
    · rw [he]
      exact ⟨pendingTxn sender recipient amount currency description, rfl, rfl⟩
    · rw [he]
      exact ⟨pendingTxn sender recipient amount currency description, rfl, rfl⟩
  · intro t ht
    rcases transfer_shape sender recipient amount currency description ledger with
      ⟨he, _⟩ | ⟨he, _⟩ | ⟨s2, _, he, _⟩ | ⟨s2, r2, hw, hd, he, _⟩
    · rw [he] at ht
      simp at ht
    · rw [he] at ht
      simp at ht
    · rw [he] at ht
      simp at ht
    · rw [he] at ht
      simp at ht
      exact ⟨by simp [ht], ⟨s2, hw⟩, ⟨r2, hd⟩⟩
  · intro i hi
    rcases transfer_shape sender recipient amount currency description ledger with
      ⟨_, hl⟩ | ⟨_, hl⟩ | ⟨s2, _, _, hl⟩ | ⟨s2, r2, _, _, _, hl⟩
    · rw [hl]
    · rw [hl]
      exact List.getElem?_append_left hi
    · rw [hl]
      exact List.getElem?_append_left hi
    · rw [hl]
      exact List.getElem?_append_left hi
  · intro t ht
    rcases deposit_shape account table damount code dledger with
      ⟨hde, _⟩ | ⟨c, _, hde | ⟨a2, _, hde⟩, _⟩
    · rw [hde] at ht
      simp at ht
    · rw [hde] at ht
      simp at ht
      simp [ht, depositTxn]
    · rw [hde] at ht
      simp at ht
      simp [ht, depositTxn]
  · intro i hi
    rcases deposit_shape account table damount code dledger with
      ⟨_, hdl⟩ | ⟨c, _, _, hdl⟩
    · rw [hdl]
    · rw [hdl]
      exact List.getElem?_append_left hi

end MobilApi
